import Mathlib

/-!
Verification development for the notes-tool repository (src/utils.py and
src/streamlit_app.py).  The Python code is shallowly embedded: JSON values
become the inductive `JVal`, the renderers become pure functions producing
event lists / row lists, Python exceptions become `Except`, and the
`try/except` boundaries of the two save functions become `Option` /
outcome structures.  File IO (font loading, byte sinks) is abstracted
away: the embedding models the content that would be written, not the
byte serialisation.
-/

namespace NotesTool

/-- Characters that are written via their code points so that source text
stays free of literal brace / backtick characters. -/
def lbChar : Char := Char.ofNat 123

/-- Closing brace character (code point 125). -/
def rbChar : Char := Char.ofNat 125

/-- Backtick character (code point 96). -/
def btChar : Char := Char.ofNat 96

/-- Python whitespace for `str.strip()` and the regex class `\s`
(ASCII scope: space, tab, newline, carriage return, vertical tab, form feed). -/
def isPySpace (c : Char) : Bool :=
  c == ' ' || c == '\t' || c == '\n' || c == '\x0d' || c == '\x0b' || c == '\x0c'

/-- Boolean list-prefix test (pattern first, then the scanned list). -/
def isPre : List Char → List Char → Bool
  | [], _ => true
  | _ :: _, [] => false
  | p :: ps, c :: cs => p == c && isPre ps cs

/-- Models Python `str.strip()` (no arguments): trim `isPySpace` characters
from both ends. -/
def pyStrip (s : String) : String :=
  String.mk (((s.toList.dropWhile isPySpace).reverse.dropWhile isPySpace).reverse)

/-- Substring replacement on character lists, non-overlapping and
left-to-right, modelling Python `str.replace(pat, rep)` for a non-empty
pattern.  The first argument is fuel (the list length suffices). -/
def replaceSubGo (pat rep : List Char) : Nat → List Char → List Char
  | 0, cs => cs
  | Nat.succ f, cs =>
    if isPre pat cs then rep ++ replaceSubGo pat rep f (cs.drop pat.length)
    else
      match cs with
      | [] => []
      | c :: rest => c :: replaceSubGo pat rep f rest

/-- Models Python `s.replace(pat, rep)` for non-empty `pat`. -/
def pyReplace (s pat rep : String) : String :=
  String.mk (replaceSubGo pat.toList rep.toList s.toList.length s.toList)

/-- One step of Python `str.title()`: a letter is uppercased when the
previous character is not a letter, lowercased otherwise. -/
def titleGo : Bool → List Char → List Char
  | _, [] => []
  | prevAlpha, c :: cs =>
    (if c.isAlpha then (if prevAlpha then c.toLower else c.toUpper) else c) ::
      titleGo c.isAlpha cs

/-- Models Python `str.title()` (for the alphabetic/ASCII keys this code
base humanizes). -/
def pyTitle (s : String) : String :=
  String.mk (titleGo false s.toList)

/-- Models `key.replace('_', ' ').title()`, the key-humanization expression
used by both renderers (src/utils.py lines 144, 157, 215, 237, 262, 286). -/
def humanize (key : String) : String :=
  pyTitle (pyReplace key "_" " ")

/-- JSON-like Python values as produced by `json.loads` and consumed by the
renderers.  Floats do not occur in any input considered here and are not
modelled. -/
inductive JVal where
  | jnull : JVal
  | jbool : Bool → JVal
  | jint : Int → JVal
  | jstr : String → JVal
  | jarr : List JVal → JVal
  | jobj : List (String × JVal) → JVal

/-- First-match association lookup (Python dicts have unique keys; the
JSON parser below inserts with overwrite so this is exact). -/
def objLookup : List (String × JVal) → String → Option JVal
  | [], _ => none
  | (k, v) :: rest, key => if k == key then some v else objLookup rest key

/-- Python dict assignment `d[k] = v`: replace in place when the key
exists (keeping its position), append otherwise. -/
def dictInsert : List (String × JVal) → String → JVal → List (String × JVal)
  | [], key, v => [(key, v)]
  | (k, w) :: rest, key, v =>
    if k == key then (k, v) :: rest else (k, w) :: dictInsert rest key v

/-- Python truthiness test used by `if ... or not values: continue`. -/
def pyFalsy : JVal → Bool
  | .jnull => true
  | .jbool b => !b
  | .jint n => n == 0
  | .jstr s => s.isEmpty
  | .jarr l => l.isEmpty
  | .jobj l => l.isEmpty

/-- Is the value a Python list?  (`isinstance(v, list)`). -/
def isList : JVal → Bool
  | .jarr _ => true
  | _ => false

mutual

/-- Models Python `repr` on the modelled values (string quoting without
escape handling, which no value in this development needs). -/
def pyRepr : JVal → String
  | .jnull => "None"
  | .jbool true => "True"
  | .jbool false => "False"
  | .jint n => toString n
  | .jstr s => "\x27" ++ s ++ "\x27"
  | .jarr l => "[" ++ pyReprList l ++ "]"
  | .jobj l => "\x7b" ++ pyReprPairs l ++ "\x7d"

/-- Comma-separated `repr` of list elements. -/
def pyReprList : List JVal → String
  | [] => ""
  | [v] => pyRepr v
  | v :: vs => pyRepr v ++ ", " ++ pyReprList vs

/-- Comma-separated `repr` of dict entries. -/
def pyReprPairs : List (String × JVal) → String
  | [] => ""
  | [(k, v)] => "\x27" ++ k ++ "\x27: " ++ pyRepr v
  | (k, v) :: rest => "\x27" ++ k ++ "\x27: " ++ pyRepr v ++ ", " ++ pyReprPairs rest

end

/-- Models Python `str(v)`: identical to `repr(v)` except on strings. -/
def pyStr : JVal → String
  | .jstr s => s
  | v => pyRepr v

/-- Models `v.get(key, default)`: raises `AttributeError` on non-dicts. -/
def pyGet (v : JVal) (key : String) (deflt : JVal) : Except String JVal :=
  match v with
  | .jobj l => .ok ((objLookup l key).getD deflt)
  | _ => .error "AttributeError: get"

/-- Models `v.items()`: raises on non-dicts. -/
def pyItems (v : JVal) : Except String (List (String × JVal)) :=
  match v with
  | .jobj l => .ok l
  | _ => .error "AttributeError: items"

/-- Models `v.values()`: raises on non-dicts. -/
def pyValues (v : JVal) : Except String (List JVal) :=
  match v with
  | .jobj l => .ok (l.map (fun kv => kv.2))
  | _ => .error "AttributeError: values"

/-- Models `for x in v`: lists yield elements, strings yield one-character
strings, dicts yield their keys, everything else raises `TypeError`. -/
def pyIterE (v : JVal) : Except String (List JVal) :=
  match v with
  | .jarr l => .ok l
  | .jstr s => .ok (s.toList.map (fun c => .jstr (String.mk [c])))
  | .jobj l => .ok (l.map (fun kv => .jstr kv.1))
  | _ => .error "TypeError: not iterable"

/-- Models Python `int(v)` as used on the `time` field: integers pass
through, booleans become 0/1, decimal strings (optionally signed, with
surrounding whitespace) are parsed, everything else raises. -/
def pyToInt (v : JVal) : Except String Int :=
  match v with
  | .jint n => .ok n
  | .jbool b => .ok (if b then 1 else 0)
  | .jstr s =>
    let cs := (pyStrip s).toList
    match cs with
    | '-' :: ds =>
      if ds ≠ [] && ds.all Char.isDigit then
        .ok (-(Int.ofNat (ds.foldl (fun a c => a * 10 + (c.toNat - 48)) 0)))
      else .error "ValueError: int"
    | ds =>
      if ds ≠ [] && ds.all Char.isDigit then
        .ok (Int.ofNat (ds.foldl (fun a c => a * 10 + (c.toNat - 48)) 0))
      else .error "ValueError: int"
  | _ => .error "TypeError: int"

/-- Models requiring a `str` receiver for a method call such as
`.replace` (raises `AttributeError` otherwise). -/
def expectStr (v : JVal) : Except String String :=
  match v with
  | .jstr s => .ok s
  | _ => .error "AttributeError: str method"

/-! ## Timestamp formatting (src/utils.py lines 95-97) -/

/-- Models the Python format spec `..:02` (zero-pad to a minimum width of
two).  Width two never pads a negative number (its sign already makes the
length at least two), so length-based padding coincides with Python. -/
def pyFormat02 (n : Int) : String :=
  let s := toString n
  String.mk (List.replicate (2 - s.length) '0') ++ s

/-- Embeds `format_timestamp` (src/utils.py lines 95-97):
`minutes = seconds // 60; seconds = seconds % 60` then
`f"[{minutes:02}:{seconds:02}]"`.  `Int.ediv`/`Int.emod` agree with
Python `//` and `%` for the positive divisor 60. -/
def format_timestamp (seconds : Int) : String :=
  let minutes := Int.ediv seconds 60
  let secs := Int.emod seconds 60
  "[" ++ pyFormat02 minutes ++ ":" ++ pyFormat02 secs ++ "]"

/-! ## Response recovery (src/utils.py lines 79-93)

`clean_gemini_response` is a single regex search:
`re.search(r'```json\s*(\{.*?\})\s*```|(\{.*?\})', response_text, re.DOTALL)`
returning group 1 or group 2 on a match and `response_text.strip()`
otherwise.  The embedding models this exact regex: `re.search` scans start
positions left to right; at a position the fenced alternative is tried
first; `\s*` is greedy whitespace that must be followed by a
non-whitespace literal, so it reduces to `dropWhile`; `.*?` is lazy under
`re.DOTALL`, i.e. the first position at which the rest of the pattern
matches wins. -/

/-- The seven-character opening marker of the fenced alternative. -/
def fenceJson : List Char := [btChar, btChar, btChar, 'j', 's', 'o', 'n']

/-- The three-character closing fence. -/
def fence3 : List Char := [btChar, btChar, btChar]

/-- After the candidate closing brace, the fenced alternative requires
`\s*` and then the closing fence. -/
def fenceCloseAfter (cs : List Char) : Bool :=
  isPre fence3 (cs.dropWhile isPySpace)

/-- Lazy scan for the closing brace of the fenced alternative: the first
closing brace whose remainder passes `fenceCloseAfter` ends the group
(group content accumulated in reverse in `acc`). -/
def alt1Scan : List Char → List Char → Option (List Char)
  | _, [] => none
  | acc, c :: rest =>
    if c == rbChar && fenceCloseAfter rest then some (acc.reverse ++ [rbChar])
    else alt1Scan (c :: acc) rest

/-- The fenced alternative `` ```json\s*(\{.*?\})\s*``` `` attempted at the
current position; returns group 1 on success. -/
def tryAlt1 (cs : List Char) : Option (List Char) :=
  if isPre fenceJson cs then
    match (cs.drop 7).dropWhile isPySpace with
    | c :: rest => if c == lbChar then (alt1Scan [] rest).map (fun g => lbChar :: g) else none
    | [] => none
  else none

/-- Lazy scan of the bare alternative `(\{.*?\})`: the first closing brace
ends the group. -/
def alt2Scan : List Char → List Char → Option (List Char)
  | _, [] => none
  | acc, c :: rest =>
    if c == rbChar then some (acc.reverse ++ [rbChar])
    else alt2Scan (c :: acc) rest

/-- The bare alternative attempted at the current position; returns
group 2 on success. -/
def tryAlt2 (cs : List Char) : Option (List Char) :=
  match cs with
  | c :: rest => if c == lbChar then (alt2Scan [] rest).map (fun g => lbChar :: g) else none
  | [] => none

/-- `re.search` over the alternation: the leftmost start position wins;
at equal positions the fenced alternative is preferred. -/
def reSearchClean : List Char → Option (List Char)
  | [] => none
  | c :: rest =>
    match tryAlt1 (c :: rest) with
    | some g => some g
    | none =>
      match tryAlt2 (c :: rest) with
      | some g => some g
      | none => reSearchClean rest

/-- Embeds `clean_gemini_response` (src/utils.py lines 79-82). -/
def clean_gemini_response (responseText : String) : String :=
  match reSearchClean responseText.toList with
  | some g => String.mk g
  | none => pyStrip responseText

/-! ## A strict JSON parser modelling `json.loads`

Faithful to `json.loads` on the inputs this development evaluates:
objects, arrays, strings with the common escapes, integers, booleans and
null; a trailing comma or trailing garbage is a parse error.  Fractional
and exponent number forms do not occur in any evaluated input and are not
modelled.  All functions are fuelled; the fuel chosen by `json_loads` is
ample for the concrete inputs used below. -/

/-- JSON whitespace (`json.loads` accepts exactly these four). -/
def isJsonWs (c : Char) : Bool :=
  c == ' ' || c == '\t' || c == '\n' || c == '\x0d'

/-- Skip JSON whitespace. -/
def skipJsonWs (cs : List Char) : List Char := cs.dropWhile isJsonWs

/-- JSON string body after the opening quote, with the common escapes. -/
def parseJStringGo : List Char → List Char → Option (String × List Char)
  | _, [] => none
  | acc, c :: rest =>
    if c == '\"' then some (String.mk acc.reverse, rest)
    else if c == '\\' then
      match rest with
      | [] => none
      | e :: rest2 =>
        if e == '\"' then parseJStringGo ('\"' :: acc) rest2
        else if e == '\\' then parseJStringGo ('\\' :: acc) rest2
        else if e == '/' then parseJStringGo ('/' :: acc) rest2
        else if e == 'n' then parseJStringGo ('\n' :: acc) rest2
        else if e == 't' then parseJStringGo ('\t' :: acc) rest2
        else if e == 'r' then parseJStringGo ('\x0d' :: acc) rest2
        else if e == 'b' then parseJStringGo ('\x08' :: acc) rest2
        else if e == 'f' then parseJStringGo ('\x0c' :: acc) rest2
        else none
    else if c.toNat < 32 then none
    else parseJStringGo (c :: acc) rest

/-- JSON number (integer forms only; a following `.`/`e`/`E` is rejected,
see the section comment). -/
def parseJInt (cs : List Char) : Option (Int × List Char) :=
  let (neg, cs1) :=
    match cs with
    | '-' :: rest => (true, rest)
    | _ => (false, cs)
  let ds := cs1.takeWhile Char.isDigit
  let rest := cs1.drop ds.length
  if ds.isEmpty then none
  else if ds.length > 1 && ds.headD '0' == '0' then none
  else
    match rest with
    | c :: _ => if c == '.' || c == 'e' || c == 'E' then none else
        some ((if neg then -1 else 1) * Int.ofNat (ds.foldl (fun a c => a * 10 + (c.toNat - 48)) 0), rest)
    | [] => some ((if neg then -1 else 1) * Int.ofNat (ds.foldl (fun a c => a * 10 + (c.toNat - 48)) 0), rest)

mutual

/-- Parse one JSON value (leading whitespace allowed). -/
def parseValue : Nat → List Char → Option (JVal × List Char)
  | 0, _ => none
  | Nat.succ f, cs =>
    match skipJsonWs cs with
    | [] => none
    | c :: rest =>
      if c == '\"' then (parseJStringGo [] rest).map (fun p => (.jstr p.1, p.2))
      else if c == lbChar then
        match skipJsonWs rest with
        | d :: rest2 =>
          if d == rbChar then some (.jobj [], rest2)
          else parseObjPairs f (d :: rest2) []
        | [] => none
      else if c == '[' then
        match skipJsonWs rest with
        | d :: rest2 =>
          if d == ']' then some (.jarr [], rest2)
          else parseArrElems f (d :: rest2) []
        | [] => none
      else if c == 't' then
        if isPre ['r', 'u', 'e'] rest then some (.jbool true, rest.drop 3) else none
      else if c == 'f' then
        if isPre ['a', 'l', 's', 'e'] rest then some (.jbool false, rest.drop 4) else none
      else if c == 'n' then
        if isPre ['u', 'l', 'l'] rest then some (.jnull, rest.drop 3) else none
      else (parseJInt (c :: rest)).map (fun p => (.jint p.1, p.2))

/-- Parse the members of a non-empty object; `cs` starts at a key. -/
def parseObjPairs : Nat → List Char → List (String × JVal) → Option (JVal × List Char)
  | 0, _, _ => none
  | Nat.succ f, cs, acc =>
    match cs with
    | c :: rest =>
      if c == '\"' then
        match parseJStringGo [] rest with
        | some (k, cs2) =>
          match skipJsonWs cs2 with
          | ':' :: cs3 =>
            match parseValue f cs3 with
            | some (v, cs4) =>
              match skipJsonWs cs4 with
              | ',' :: cs5 => parseObjPairs f (skipJsonWs cs5) (dictInsert acc k v)
              | d :: cs5 =>
                if d == rbChar then some (.jobj (dictInsert acc k v), cs5) else none
              | [] => none
            | none => none
          | _ => none
        | none => none
      else none
    | [] => none

/-- Parse the elements of a non-empty array; `cs` starts at a value. -/
def parseArrElems : Nat → List Char → List JVal → Option (JVal × List Char)
  | 0, _, _ => none
  | Nat.succ f, cs, acc =>
    match parseValue f cs with
    | some (v, cs2) =>
      match skipJsonWs cs2 with
      | ',' :: cs3 => parseArrElems f cs3 (acc ++ [v])
      | ']' :: cs3 => some (.jarr (acc ++ [v]), cs3)
      | _ => none
    | none => none

end

/-- Models `json.loads`: parse one value then require only whitespace to
follow. -/
def json_loads (s : String) : Option JVal :=
  match parseValue (s.length + 64) s.toList with
  | some (v, rest) => if (skipJsonWs rest).isEmpty then some v else none
  | none => none

/-- The response-recovery portion of `summarize_with_gemini`
(src/utils.py lines 84-93): `clean_gemini_response` then `json.loads`,
with the surrounding `try/except` turning any parse exception into
`None`. -/
def recoverResponse (responseText : String) : Option JVal :=
  json_loads (clean_gemini_response responseText)

/-! ## Highlight parsing (src/utils.py lines 118-134)

`write_highlighted_text` does `re.split(r'(<hl>.*?</hl>)', text)` and then,
for each part, renders `part[4:-5]` as a highlighted cell when the part
starts with `<hl>`, and the part itself as plain text otherwise.  The
split is modelled exactly: repeatedly find the leftmost lazy match of
`<hl>.*?</hl>` and emit the preceding text, the match, and continue on the
remainder (captured groups are kept by `re.split`). -/

/-- The opening tag. -/
def hlOpen : List Char := ['<', 'h', 'l', '>']

/-- The closing tag. -/
def hlClose : List Char := ['<', '/', 'h', 'l', '>']

/-- Find the first occurrence of the closing tag; returns the content
before it and the remainder after it. -/
def findHlClose : List Char → List Char → Option (List Char × List Char)
  | _, [] => none
  | acc, c :: rest =>
    if isPre hlClose (c :: rest) then some (acc.reverse, (c :: rest).drop 5)
    else findHlClose (c :: acc) rest

/-- Attempt the lazy match `<hl>.*?</hl>` at the current position;
returns the matched text and the remainder. -/
def tryMatchHl (cs : List Char) : Option (List Char × List Char) :=
  if isPre hlOpen cs then
    match findHlClose [] (cs.drop 4) with
    | some (content, rest) => some (hlOpen ++ content ++ hlClose, rest)
    | none => none
  else none

/-- Leftmost match search: returns (text before the match, match,
remainder). -/
def findSplitMatch : List Char → Option (List Char × List Char × List Char)
  | [] => none
  | c :: rest =>
    match tryMatchHl (c :: rest) with
    | some (m, r) => some ([], m, r)
    | none =>
      match findSplitMatch rest with
      | some (p, m, r) => some (c :: p, m, r)
      | none => none

/-- The split loop of `re.split` with a captured group: pre-part, match,
then continue on the remainder.  Fuelled; every match consumes at least
nine characters, so the text length is ample fuel. -/
def reSplitGo : Nat → List Char → List (List Char)
  | 0, cs => [cs]
  | Nat.succ f, cs =>
    match findSplitMatch cs with
    | none => [cs]
    | some (p, m, r) => p :: m :: reSplitGo f r

/-- Models `re.split(r'(<hl>.*?</hl>)', text)`. -/
def reSplitHl (text : String) : List String :=
  (reSplitGo text.toList.length text.toList).map String.mk

/-- Python `part[4:-5]`. -/
def pySlice4m5 (s : String) : String :=
  String.mk ((s.toList.drop 4).take (s.toList.length - 9))

/-- An output segment of `write_highlighted_text`: highlighted (bold on a
yellow fill) or plain body text. -/
inductive Seg where
  | hl : String → Seg
  | plain : String → Seg

/-- Embeds `PDF.write_highlighted_text` (src/utils.py lines 118-134) as
the list of rendered segments. -/
def write_highlighted_text (text : String) : List Seg :=
  (reSplitHl text).map (fun part =>
    if isPre hlOpen part.toList then .hl (pySlice4m5 part) else .plain part)

/-- The characters actually rendered by a segment list. -/
def segsText : List Seg → String
  | [] => ""
  | .hl s :: rest => s ++ segsText rest
  | .plain s :: rest => s ++ segsText rest

/-! ## The document renderer (src/utils.py lines 250-298)

`save_to_pdf` is embedded as the ordered list of layout events it emits.
Pagination, cursor movement, fonts and colors are presentation state with
no bearing on any claim; the events record the text, the highlighting and
the link targets.  Exceptions anywhere in the body are caught by the
function's `try/except`, which prints and returns `None` — modelled by
`Option`. -/

/-- One layout event of the document renderer. -/
inductive PdfEvent where
  | titleCell : String → PdfEvent
  | headingCell : String → PdfEvent
  | topicCell : String → PdfEvent
  | textSegs : List Seg → PdfEvent
  | labelCell : String → PdfEvent
  | timeLink : String → String → PdfEvent

/-- The base URL exactly as built by `save_to_pdf` (src/utils.py line
253): `f"https.www.youtube.com/watch?v={video_id}"`. -/
def base_url (videoId : String) : String :=
  "https.www.youtube.com/watch?v=" ++ videoId

/-- The canonical watch URL named by the specification
(`canonicalUrl(videoId)`).  Modelled from the spec: the repository has no
such helper; this definition exists only to compare the emitted links
against the spec's words. -/
def canonicalUrl (videoId : String) : String :=
  "https://www.youtube.com/watch?v=" ++ videoId

/-- Events for one detail of a nested item (src/utils.py lines 269-277). -/
def pdfDetailEvents (baseUrl : String) (detailItem : JVal) : Except String (List PdfEvent) := do
  let tv ← pyGet detailItem "time" (.jint 0)
  let t ← pyToInt tv
  let link := baseUrl ++ "&t=" ++ toString t ++ "s"
  let dv ← pyGet detailItem "detail" (.jstr "")
  let displayText := "    • " ++ pyStr dv
  pure [.textSegs (write_highlighted_text displayText),
        .timeLink (format_timestamp t) link]

/-- Events for the fields of a flat item (src/utils.py lines 282-288):
every field except `time` emits a bold humanized label and a
highlight-parsed value. -/
def pdfFlatFieldEvents : List (String × JVal) → List PdfEvent
  | [] => []
  | (sk, sv) :: rest =>
    if sk == "time" then pdfFlatFieldEvents rest
    else
      .labelCell ("• " ++ humanize sk ++ ": ") ::
      .textSegs (write_highlighted_text (pyStr sv)) ::
      pdfFlatFieldEvents rest

/-- A Python `for` loop that appends the events/rows produced for each
element and stops at the first exception. -/
def exConcatMap {α β : Type} (f : α → Except String (List β)) : List α → Except String (List β)
  | [] => .ok []
  | x :: xs => do pure ((← f x) ++ (← exConcatMap f xs))

/-- A Python `for` loop that appends one result per element and stops at
the first exception. -/
def exMap {α β : Type} (f : α → Except String β) : List α → Except String (List β)
  | [] => .ok []
  | x :: xs => do pure ((← f x) :: (← exMap f xs))

/-- The nested/flat predicate of the document renderer (src/utils.py line
265): `any(isinstance(v, list) for v in item.values())`. -/
def pdfIsNested (item : JVal) : Except String Bool := do
  pure ((← pyValues item).any isList)

/-- Events for one item of a section (src/utils.py lines 264-291). -/
def pdfItemEvents (baseUrl : String) (item : JVal) : Except String (List PdfEvent) := do
  let nested ← pdfIsNested item
  if nested then do
    let topicV ← pyGet item "topic" (.jstr "")
    let ds ← pyGet item "details" (.jarr [])
    let dlist ← pyIterE ds
    let evs ← exConcatMap (pdfDetailEvents baseUrl) dlist
    pure (.topicCell ("  " ++ pyStr topicV) :: evs)
  else do
    let tv ← pyGet item "time" (.jint 0)
    let t ← pyToInt tv
    let link := baseUrl ++ "&t=" ++ toString t ++ "s"
    let entries ← pyItems item
    pure (pdfFlatFieldEvents entries ++ [.timeLink (format_timestamp t) link])

/-- Events for one section (heading then items, src/utils.py lines
260-292). -/
def pdfSectionEvents (baseUrl : String) (key : String) (values : JVal) :
    Except String (List PdfEvent) := do
  let items ← pyIterE values
  let evs ← exConcatMap (pdfItemEvents baseUrl) items
  pure (.headingCell (humanize key) :: evs)

/-- The body of `save_to_pdf` inside its `try` (src/utils.py lines
254-296): title from `main_subject` (default "Video Summary"), then every
section whose key is not `main_subject` and whose value is truthy, in
dict order. -/
def pdfBody (data : JVal) (videoId : String) : Except String (List PdfEvent) := do
  let titleV ← pyGet data "main_subject" (.jstr "Video Summary")
  let titleS ← expectStr titleV
  let entries ← pyItems data
  let sections := entries.filter (fun kv => !(kv.1 == "main_subject") && !(pyFalsy kv.2))
  let evs ← exConcatMap (fun kv => pdfSectionEvents (base_url videoId) kv.1 kv.2) sections
  pure (.titleCell titleS :: evs)

/-- Embeds `save_to_pdf` (src/utils.py lines 251-298): the `try/except`
prints and swallows any exception, producing no document. -/
def save_to_pdf (data : JVal) (videoId : String) : Option (List PdfEvent) :=
  match pdfBody data videoId with
  | .ok evs => some evs
  | .error _ => none

/-! ## The tabular renderer (src/utils.py lines 136-167) -/

/-- A spreadsheet row: an insertion-ordered dict from column name to cell
value, exactly the Python row dicts appended to `flat_data`. -/
abbrev Row : Type := List (String × JVal)

/-- Strips highlight markup:
`.replace('<hl>', '').replace('</hl>', '')`. -/
def stripHl (s : String) : String :=
  pyReplace (pyReplace s "<hl>" "") "</hl>" ""

/-- The nested/flat predicate of the tabular renderer (src/utils.py line
148): `'details' in item and isinstance(item['details'], list)` (reached
only for dict items). -/
def excelIsNested (item : JVal) : Bool :=
  match item with
  | .jobj entries =>
    match objLookup entries "details" with
    | some (.jarr _) => true
    | _ => false
  | _ => false

/-- One row per detail of a nested item (src/utils.py lines 150-154):
columns `Detail` (highlight-stripped, raises when the value is not a
string) and `Time (s)` (the raw value, default 0). -/
def excelDetailRow (row : Row) (detailItem : JVal) : Except String Row := do
  let dv ← pyGet detailItem "detail" (.jstr "")
  let ds ← expectStr dv
  let tv ← pyGet detailItem "time" (.jint 0)
  pure (dictInsert (dictInsert row "Detail" (.jstr (stripHl ds))) "Time (s)" tv)

/-- The flat branch (src/utils.py lines 156-158): every field of the item
(including `time`) becomes a column under its humanized key with the
stringified, highlight-stripped value. -/
def excelFlatRow (row : Row) (entries : List (String × JVal)) : Row :=
  entries.foldl (fun r kv => dictInsert r (humanize kv.1) (.jstr (stripHl (pyStr kv.2)))) row

/-- Rows for one item of a section (src/utils.py lines 145-160). -/
def excelItemRows (sectionName : String) (item : JVal) : Except String (List Row) :=
  let row : Row := [("Section", .jstr sectionName)]
  match item with
  | .jobj entries =>
    match objLookup entries "details" with
    | some (.jarr ds) =>
      let row2 := dictInsert row "Topic" ((objLookup entries "topic").getD (.jstr ""))
      exMap (excelDetailRow row2) ds
    | _ => pure [excelFlatRow row entries]
  | _ => pure [[("Section", .jstr sectionName), ("Item", .jstr (pyStr item))]]

/-- The `flat_data` accumulation of `save_to_excel` inside its `try`
(src/utils.py lines 140-160): every section whose key is not
`main_subject` and whose value is truthy, in dict order. -/
def excelRows (data : JVal) : Except String (List Row) := do
  let entries ← pyItems data
  let sections := entries.filter (fun kv => !(kv.1 == "main_subject") && !(pyFalsy kv.2))
  exConcatMap (fun kv => do
    let items ← pyIterE kv.2
    exConcatMap (excelItemRows (humanize kv.1)) items) sections

/-- What `save_to_excel` leaves behind for its caller. -/
structure ExcelOutcome where
  rows : Option (List Row)
  raised : Bool

/-- Embeds `save_to_excel` (src/utils.py lines 137-167).  The
`except Exception as e: print(...)` clause catches every exception, prints
a log line, and returns normally, so `raised` is false on both paths and
a failing flattening writes nothing (`rows = none`). -/
def save_to_excel (data : JVal) : ExcelOutcome :=
  match excelRows data with
  | .ok rs => { rows := some rs, raised := false }
  | .error _ => { rows := none, raised := false }

/-- The expected-keys constant (src/utils.py lines 20-24). -/
def EXPECTED_KEYS : List String :=
  ["main_subject", "topic_breakdown", "key_vocabulary",
   "formulas_and_principles", "teacher_insights",
   "exam_focus_points", "common_mistakes_explained"]

/-! ## Support lemmas -/

/-- A successful prefix test decomposes the list. -/
theorem isPre_append {p cs : List Char} (h : isPre p cs = true) :
    cs = p ++ cs.drop p.length := by
  induction p generalizing cs with
  | nil => simp
  | cons a ps ih =>
    cases cs with
    | nil => simp [isPre] at h
    | cons c rest =>
      simp only [isPre, Bool.and_eq_true] at h
      obtain ⟨hac, hrest⟩ := h
      have : a = c := eq_of_beq hac
      subst this
      simpa using ih hrest

/-- A successful association lookup returns one of the stored values. -/
theorem objLookup_mem {l : List (String × JVal)} {key : String} {v : JVal}
    (h : objLookup l key = some v) : v ∈ l.map (fun kv => kv.2) := by
  induction l with
  | nil => simp [objLookup] at h
  | cons kv rest ih =>
    obtain ⟨k, w⟩ := kv
    by_cases hk : (k == key) = true
    · simp only [objLookup, hk, if_true, Option.some.injEq] at h
      subst h; simp
    · simp only [objLookup, hk, if_false] at h
      simp only [List.map]
      exact List.mem_cons_of_mem _ (ih h)

/-- `findHlClose` decomposes its input around the closing tag. -/
theorem findHlClose_spec :
    ∀ (cs acc content rest : List Char),
      findHlClose acc cs = some (content, rest) →
      acc.reverse ++ cs = content ++ hlClose ++ rest := by
  intro cs
  induction cs with
  | nil => intro acc content rest h; simp [findHlClose] at h
  | cons c cs0 ih =>
    intro acc content rest h
    by_cases hp : isPre hlClose (c :: cs0) = true
    · rw [findHlClose, if_pos hp] at h
      simp only [Option.some.injEq, Prod.mk.injEq] at h
      obtain ⟨h1, h2⟩ := h
      subst h1; subst h2
      have hd : c :: cs0 = hlClose ++ List.drop 5 (c :: cs0) := isPre_append hp
      rw [List.append_assoc]
      exact congrArg (acc.reverse ++ ·) hd
    · rw [findHlClose, if_neg hp] at h
      have := ih (c :: acc) content rest h
      simpa [List.append_assoc] using this

/-- A successful lazy tag match decomposes its input. -/
theorem tryMatchHl_spec {cs m r : List Char} (h : tryMatchHl cs = some (m, r)) :
    cs = m ++ r := by
  unfold tryMatchHl at h
  by_cases hp : isPre hlOpen cs = true
  · rw [if_pos hp] at h
    cases hf : findHlClose [] (cs.drop 4) with
    | none => rw [hf] at h; simp at h
    | some pr =>
      obtain ⟨content, rest⟩ := pr
      rw [hf] at h
      simp only [Option.some.injEq, Prod.mk.injEq] at h
      obtain ⟨h1, h2⟩ := h
      subst h1; subst h2
      have hd : cs.drop 4 = content ++ hlClose ++ rest := by
        have := findHlClose_spec (cs.drop 4) [] content rest hf
        simpa using this
      have hcs : cs = hlOpen ++ cs.drop 4 := isPre_append hp
      rw [hcs, hd]
      simp [List.append_assoc]
  · rw [if_neg hp] at h; simp at h

/-- A found split match decomposes its input. -/
theorem findSplitMatch_spec :
    ∀ (cs p m r : List Char), findSplitMatch cs = some (p, m, r) →
      cs = p ++ m ++ r := by
  intro cs
  induction cs with
  | nil => intro p m r h; simp [findSplitMatch] at h
  | cons c cs0 ih =>
    intro p m r h
    rw [findSplitMatch] at h
    cases ht : tryMatchHl (c :: cs0) with
    | some mr =>
      obtain ⟨m0, r0⟩ := mr
      rw [ht] at h
      simp only [Option.some.injEq, Prod.mk.injEq] at h
      obtain ⟨h1, h2, h3⟩ := h
      subst h1; subst h2; subst h3
      simpa using tryMatchHl_spec ht
    | none =>
      rw [ht] at h
      cases hf : findSplitMatch cs0 with
      | none => rw [hf] at h; simp at h
      | some pmr =>
        obtain ⟨p0, m0, r0⟩ := pmr
        rw [hf] at h
        simp only [Option.some.injEq, Prod.mk.injEq] at h
        obtain ⟨h1, h2, h3⟩ := h
        subst h1; subst h2; subst h3
        have := ih p0 m0 r0 hf
        simp [this]

/-- The split loop loses no characters, whatever the fuel. -/
theorem reSplitGo_flatten : ∀ (fuel : Nat) (cs : List Char),
    (reSplitGo fuel cs).flatten = cs := by
  intro fuel
  induction fuel with
  | zero => intro cs; simp [reSplitGo]
  | succ f ih =>
    intro cs
    rw [reSplitGo]
    cases hf : findSplitMatch cs with
    | none => simp
    | some pmr =>
      obtain ⟨p, m, r⟩ := pmr
      have hd := findSplitMatch_spec cs p m r hf
      simp [List.flatten, ih, hd, List.append_assoc]

/-- String concatenation of a list of parts. -/
def partsText : List String → String
  | [] => ""
  | s :: rest => s ++ partsText rest

/-- `partsText` over `String.mk` parts is `String.mk` of the flattened
character lists. -/
theorem partsText_mk : ∀ (ll : List (List Char)),
    partsText (ll.map String.mk) = String.mk ll.flatten := by
  intro ll
  induction ll with
  | nil => rfl
  | cons a rest ih =>
    simp only [List.map, partsText, ih, List.flatten]
    rfl

/-- `re.split` with a captured group preserves the text: concatenating all
parts returned by `reSplitHl` gives back the input. -/
theorem reSplitHl_preserves (s : String) : partsText (reSplitHl s) = s := by
  unfold reSplitHl
  rw [partsText_mk, reSplitGo_flatten]
  rfl

/-- Inversion for a successful `Except` bind. -/
theorem exBind_ok {α β : Type} {x : Except String α} {f : α → Except String β} {y : β}
    (h : (x >>= f) = .ok y) : ∃ a, x = .ok a ∧ f a = .ok y := by
  cases x with
  | error e => simp [Bind.bind, Except.bind] at h
  | ok a => exact ⟨a, rfl, by simpa [Bind.bind, Except.bind] using h⟩

/-- Inversion for a successful `Except` pure. -/
theorem exPure_ok {β : Type} {a y : β}
    (h : (pure a : Except String β) = .ok y) : y = a := by
  simpa [Pure.pure, Except.pure] using h.symm

/-- The tabular renderer's nested test implies the document renderer's:
when `'details'` holds a list, some field value is a list.  The converse
fails (see the C4 counterexample): the predicates are not the same. -/
theorem excelNested_implies_pdfNested (item : JVal)
    (h : excelIsNested item = true) : pdfIsNested item = .ok true := by
  cases item with
  | jobj entries =>
    cases hl : objLookup entries "details" with
    | none =>
      simp only [excelIsNested, hl] at h
      exact Bool.noConfusion h
    | some v =>
      cases v with
      | jarr l =>
        have hm : JVal.jarr l ∈ entries.map (fun kv => kv.2) := objLookup_mem hl
        unfold pdfIsNested pyValues
        simp only [bind, Except.bind, pure, Except.pure, Except.ok.injEq]
        exact List.any_eq_true.mpr ⟨JVal.jarr l, hm, rfl⟩
      | jnull =>
        simp only [excelIsNested, hl] at h
        exact Bool.noConfusion h
      | jbool b =>
        simp only [excelIsNested, hl] at h
        exact Bool.noConfusion h
      | jint n =>
        simp only [excelIsNested, hl] at h
        exact Bool.noConfusion h
      | jstr s =>
        simp only [excelIsNested, hl] at h
        exact Bool.noConfusion h
      | jobj o =>
        simp only [excelIsNested, hl] at h
        exact Bool.noConfusion h
  | jnull => simp [excelIsNested] at h
  | jbool b => simp [excelIsNested] at h
  | jint n => simp [excelIsNested] at h
  | jstr s => simp [excelIsNested] at h
  | jarr l => simp [excelIsNested] at h

/-- A single decimal digit prints with length one. -/
theorem repr_len_one {m : Nat} (h : m < 10) : (Nat.repr m).length = 1 := by
  interval_cases m <;> rfl

/-- `Nat.toDigitsCore` never shrinks its accumulator. -/
theorem toDigitsCore_len_ge (b : Nat) : ∀ (f n : Nat) (l : List Char),
    l.length ≤ (Nat.toDigitsCore b f n l).length := by
  intro f
  induction f with
  | zero => intro n l; simp [Nat.toDigitsCore]
  | succ f ih =>
    intro n l
    rw [Nat.toDigitsCore]
    by_cases hq : n / b = 0
    · simp [hq]
    · rw [if_neg hq]
      exact le_trans (by simp) (ih (n / b) (Nat.digitChar (n % b) :: l))

/-- A number of at least ten prints with length at least two. -/
theorem repr_len_two {m : Nat} (h : 10 ≤ m) : 2 ≤ (Nat.repr m).length := by
  obtain ⟨f, rfl⟩ : ∃ f, m = f + 1 := ⟨m - 1, by omega⟩
  have hne : ¬((f + 1) / 10 = 0) := by
    have : 0 < (f + 1) / 10 := Nat.div_pos h (by omega)
    omega
  show 2 ≤ (Nat.toDigitsCore 10 (f + 1 + 1) (f + 1) []).asString.length
  rw [Nat.toDigitsCore, if_neg hne]
  simp only [List.asString, String.length]
  rw [Nat.toDigitsCore_lens_eq]
  have h1 : 1 ≤ (Nat.toDigitsCore 10 (f + 1) ((f + 1) / 10) []).length := by
    rw [Nat.toDigitsCore]
    by_cases hq : ((f + 1) / 10) / 10 = 0
    · simp [hq]
    · rw [if_neg hq]
      exact le_trans (by simp) (toDigitsCore_len_ge 10 f _ _)
  omega

/-- The Python format spec `..:02` on a non-negative value: one leading
zero for a single digit, no padding otherwise. -/
theorem pyFormat02_ofNat (m : Nat) :
    pyFormat02 (Int.ofNat m) = if m < 10 then "0" ++ Nat.repr m else Nat.repr m := by
  have key : pyFormat02 (Int.ofNat m) =
      String.mk (List.replicate (2 - (Nat.repr m).length) '0') ++ Nat.repr m := rfl
  rw [key]
  by_cases h : m < 10
  · rw [if_pos h, repr_len_one h]
    rfl
  · rw [if_neg h]
    have h2 : 2 ≤ (Nat.repr m).length := repr_len_two (by omega)
    have h0 : 2 - (Nat.repr m).length = 0 := by omega
    rw [h0]
    generalize Nat.repr m = s
    obtain ⟨l⟩ := s
    rfl

/-- The section headings emitted in an event stream. -/
def pdfHeadings : List PdfEvent → List String
  | [] => []
  | .headingCell s :: rest => s :: pdfHeadings rest
  | .titleCell _ :: rest => pdfHeadings rest
  | .topicCell _ :: rest => pdfHeadings rest
  | .textSegs _ :: rest => pdfHeadings rest
  | .labelCell _ :: rest => pdfHeadings rest
  | .timeLink _ _ :: rest => pdfHeadings rest

/-- The top-level entries both renderers actually process: every key other
than `main_subject` whose value is truthy, in dict order. -/
def sectionEntries (data : JVal) : List (String × JVal) :=
  match data with
  | .jobj l => l.filter (fun kv => !(kv.1 == "main_subject") && !(pyFalsy kv.2))
  | _ => []

theorem pdfHeadings_append (a b : List PdfEvent) :
    pdfHeadings (a ++ b) = pdfHeadings a ++ pdfHeadings b := by
  induction a with
  | nil => rfl
  | cons x rest ih => cases x <;> simp [pdfHeadings, ih]

theorem pdfFlatFieldEvents_headings (entries : List (String × JVal)) :
    pdfHeadings (pdfFlatFieldEvents entries) = [] := by
  induction entries with
  | nil => rfl
  | cons kv rest ih =>
    obtain ⟨sk, sv⟩ := kv
    by_cases h : (sk == "time") = true
    · simp [pdfFlatFieldEvents, h, ih]
    · simp [pdfFlatFieldEvents, h, ih, pdfHeadings]

theorem pdfDetail_headings {b : String} {d : JVal} {evs : List PdfEvent}
    (h : pdfDetailEvents b d = .ok evs) : pdfHeadings evs = [] := by
  unfold pdfDetailEvents at h
  obtain ⟨tv, htv, h⟩ := exBind_ok h
  obtain ⟨t, ht, h⟩ := exBind_ok h
  obtain ⟨dv, hdv, h⟩ := exBind_ok h
  have he := exPure_ok h
  subst he
  rfl

theorem exConcatMap_detail_headings {b : String} :
    ∀ (l : List JVal) (evs : List PdfEvent),
      exConcatMap (pdfDetailEvents b) l = .ok evs → pdfHeadings evs = [] := by
  intro l
  induction l with
  | nil =>
    intro evs h
    simp only [exConcatMap, Except.ok.injEq] at h
    subst h; rfl
  | cons x xs ih =>
    intro evs h
    unfold exConcatMap at h
    obtain ⟨a, ha, h⟩ := exBind_ok h
    obtain ⟨c, hc, h⟩ := exBind_ok h
    have he := exPure_ok h
    subst he
    rw [pdfHeadings_append, pdfDetail_headings ha, ih c hc]
    rfl

theorem pdfItem_headings {b : String} {item : JVal} {evs : List PdfEvent}
    (h : pdfItemEvents b item = .ok evs) : pdfHeadings evs = [] := by
  unfold pdfItemEvents at h
  obtain ⟨nested, hn, h⟩ := exBind_ok h
  cases nested with
  | true =>
    rw [if_pos rfl] at h
    obtain ⟨topicV, _, h⟩ := exBind_ok h
    obtain ⟨ds, _, h⟩ := exBind_ok h
    obtain ⟨dlist, _, h⟩ := exBind_ok h
    obtain ⟨evs1, hevs1, h⟩ := exBind_ok h
    have he := exPure_ok h
    subst he
    show pdfHeadings (PdfEvent.topicCell _ :: evs1) = []
    rw [show pdfHeadings (PdfEvent.topicCell ("  " ++ pyStr topicV) :: evs1) =
          pdfHeadings evs1 from rfl]
    exact exConcatMap_detail_headings dlist evs1 hevs1
  | false =>
    rw [if_neg (by simp)] at h
    obtain ⟨tv, _, h⟩ := exBind_ok h
    obtain ⟨t, _, h⟩ := exBind_ok h
    obtain ⟨entries, _, h⟩ := exBind_ok h
    have he := exPure_ok h
    subst he
    rw [pdfHeadings_append, pdfFlatFieldEvents_headings]
    rfl

theorem exConcatMap_item_headings {b : String} :
    ∀ (l : List JVal) (evs : List PdfEvent),
      exConcatMap (pdfItemEvents b) l = .ok evs → pdfHeadings evs = [] := by
  intro l
  induction l with
  | nil =>
    intro evs h
    simp only [exConcatMap, Except.ok.injEq] at h
    subst h; rfl
  | cons x xs ih =>
    intro evs h
    unfold exConcatMap at h
    obtain ⟨a, ha, h⟩ := exBind_ok h
    obtain ⟨c, hc, h⟩ := exBind_ok h
    have he := exPure_ok h
    subst he
    rw [pdfHeadings_append, pdfItem_headings ha, ih c hc]
    rfl

theorem pdfSection_headings {b k : String} {v : JVal} {evs : List PdfEvent}
    (h : pdfSectionEvents b k v = .ok evs) : pdfHeadings evs = [humanize k] := by
  unfold pdfSectionEvents at h
  obtain ⟨items, _, h⟩ := exBind_ok h
  obtain ⟨evs1, hevs1, h⟩ := exBind_ok h
  have he := exPure_ok h
  subst he
  show pdfHeadings (PdfEvent.headingCell (humanize k) :: evs1) = [humanize k]
  rw [show pdfHeadings (PdfEvent.headingCell (humanize k) :: evs1) =
        humanize k :: pdfHeadings evs1 from rfl]
  rw [exConcatMap_item_headings items evs1 hevs1]

theorem pdfSections_headings {b : String} :
    ∀ (l : List (String × JVal)) (evs : List PdfEvent),
      exConcatMap (fun kv => pdfSectionEvents b kv.1 kv.2) l = .ok evs →
      pdfHeadings evs = l.map (fun kv => humanize kv.1) := by
  intro l
  induction l with
  | nil =>
    intro evs h
    simp only [exConcatMap, Except.ok.injEq] at h
    subst h; rfl
  | cons x xs ih =>
    intro evs h
    unfold exConcatMap at h
    obtain ⟨a, ha, h⟩ := exBind_ok h
    obtain ⟨c, hc, h⟩ := exBind_ok h
    have he := exPure_ok h
    subst he
    rw [pdfHeadings_append, pdfSection_headings ha, ih c hc]
    rfl

/-- Whenever the document renderer succeeds, its headings are exactly the
humanized top-level keys other than `main_subject` with truthy values, in
order — membership in `EXPECTED_KEYS` plays no role. -/
theorem pdfBody_headings {data : JVal} {vid : String} {evs : List PdfEvent}
    (h : pdfBody data vid = .ok evs) :
    pdfHeadings evs = (sectionEntries data).map (fun kv => humanize kv.1) := by
  unfold pdfBody at h
  obtain ⟨titleV, htv, h⟩ := exBind_ok h
  obtain ⟨titleS, hts, h⟩ := exBind_ok h
  obtain ⟨entries, hent, h⟩ := exBind_ok h
  obtain ⟨evs1, hevs1, h⟩ := exBind_ok h
  have he := exPure_ok h
  subst he
  cases data with
  | jobj l =>
    have hel : entries = l := by
      simpa [pyItems] using hent.symm
    subst hel
    show pdfHeadings (PdfEvent.titleCell titleS :: evs1) = _
    rw [show pdfHeadings (PdfEvent.titleCell titleS :: evs1) = pdfHeadings evs1 from rfl]
    rw [pdfSections_headings _ _ hevs1]
    rfl
  | jnull => simp [pyItems] at hent
  | jbool b => simp [pyItems] at hent
  | jint n => simp [pyItems] at hent
  | jstr s => simp [pyItems] at hent
  | jarr a => simp [pyItems] at hent

/-- A detail object with no `time` key renders with the substituted
timestamp 0: label `[00:00]` and link offset `&t=0s`. -/
theorem pdfDetail_no_time (entries : List (String × JVal)) (b : String)
    (h : objLookup entries "time" = none) :
    pdfDetailEvents b (.jobj entries) =
      .ok [.textSegs (write_highlighted_text
              ("    • " ++ pyStr ((objLookup entries "detail").getD (.jstr "")))),
           .timeLink "[00:00]" (b ++ "&t=0s")] := by
  unfold pdfDetailEvents
  simp only [pyGet, h, Option.getD, bind, Except.bind, pyToInt, pure, Except.pure]
  rw [show format_timestamp 0 = "[00:00]" from rfl,
      show toString (0 : Int) = "0" from rfl]
  simp [String.append_assoc]

/-! ## The claims -/

/-- Input for claim C1: a study guide with one timestamped detail. -/
def c1Data : JVal :=
  .jobj [("main_subject", .jstr "Calculus"),
    ("topic_breakdown", .jarr [.jobj [("topic", .jstr "Derivatives"),
      ("details", .jarr [.jobj [("detail", .jstr "A derivative is a <hl>rate of change</hl>."),
        ("time", .jint 90)]])]])]

/-- C1: the spec says every clickable timestamp link targets the canonical
watch URL `https://www.youtube.com/watch?v=<id>` with `&t=<seconds>s`
appended.  The renderer (src/utils.py line 253) builds its base URL as
`https.www.youtube.com/watch?v=<id>` — the `//` of the scheme is missing —
so the emitted link carries the right `&t=90s` offset but a malformed
base: evaluated at a one-detail guide for video id "abc", the link is
`https.www.youtube.com/watch?v=abc&t=90s`, which differs from the
canonical URL plus offset. -/
theorem c1_link_target_malformed_base :
    save_to_pdf c1Data "abc" =
      some [.titleCell "Calculus", .headingCell "Topic Breakdown",
            .topicCell "  Derivatives",
            .textSegs [.plain "    • A derivative is a ", .hl "rate of change", .plain "."],
            .timeLink "[01:30]" "https.www.youtube.com/watch?v=abc&t=90s"] ∧
    "https.www.youtube.com/watch?v=abc&t=90s" ≠ canonicalUrl "abc" ++ "&t=90s" :=
  ⟨rfl, by decide⟩

/-- C2 counterexample: on the truncated input the extractor performs no
repair (the candidate comes back unchanged, trailing comma intact and no
closing brace) and recovery yields no parsed object at all — in
particular no object whose `main_subject` is "X". -/
theorem c2_counterexample :
    clean_gemini_response "\x7b\"main_subject\":\"X\"," = "\x7b\"main_subject\":\"X\"," ∧
    recoverResponse "\x7b\"main_subject\":\"X\"," = none :=
  ⟨rfl, rfl⟩

/-- C2 (amended): response recovery performs no repair pass.  The
truncated candidate is returned by `clean_gemini_response` unchanged,
fails to parse under `json.loads`, and the recovery pipeline reports
failure (`none`) instead of crashing; non-JSON garbage likewise reports
failure. -/
theorem c2_truncated_input_reports_failure :
    clean_gemini_response "\x7b\"main_subject\":\"X\"," = "\x7b\"main_subject\":\"X\"," ∧
    json_loads "\x7b\"main_subject\":\"X\"," = none ∧
    recoverResponse "\x7b\"main_subject\":\"X\"," = none ∧
    recoverResponse "this is not json" = none :=
  ⟨rfl, rfl, rfl, rfl⟩

/-- Input for claim C3: a well-formed JSON object containing a nested
object. -/
def c3NestedInput : String := "\x7b\"a\": \x7b\"b\": 1\x7d, \"c\": 2\x7d"

/-- C3 counterexample: the bare-brace alternative is lazy, not greedy —
on a well-formed object containing a nested object it stops at the first
closing brace, so the object is not extracted in its entirety; moreover a
bare `\x7b` earlier in the text beats a later fenced block, so a present
fenced block is not always preferred. -/
theorem c3_counterexample :
    clean_gemini_response c3NestedInput = "\x7b\"a\": \x7b\"b\": 1\x7d" ∧
    "\x7b\"a\": \x7b\"b\": 1\x7d" ≠ c3NestedInput ∧
    clean_gemini_response "pre \x7b\"a\":1\x7d post ```json\n\x7b\"b\":2\x7d\n```" = "\x7b\"a\":1\x7d" :=
  ⟨rfl, by decide, rfl⟩

/-- C3 (amended): when the leftmost regex match is the fenced
alternative, the interior up to the last closing brace before the fence
is taken, so a fenced nested object is extracted whole; the unfenced
alternative matches from the first opening brace to the first closing
brace (lazily), truncating nested objects; with no match the stripped
text is returned. -/
theorem c3_extraction_behaviour :
    clean_gemini_response "```json\n\x7b\"a\": \x7b\"b\": 1\x7d\x7d\n```" = "\x7b\"a\": \x7b\"b\": 1\x7d\x7d" ∧
    clean_gemini_response c3NestedInput = "\x7b\"a\": \x7b\"b\": 1\x7d" ∧
    clean_gemini_response "no json here" = "no json here" :=
  ⟨rfl, rfl, rfl⟩

/-- Item for claim C4: its only field value is a list, under a key other
than `details`. -/
def c4Item : JVal := .jobj [("insight", .jarr [])]

/-- Data for claim C4. -/
def c4Data : JVal := .jobj [("teacher_insights", .jarr [c4Item])]

/-- C4 counterexample: the renderers do not branch on the same predicate.
On an item whose list value sits under a key other than `details`, the
document renderer takes the nested branch (it emits a topic line and no
field labels) while the tabular renderer takes the flat branch (it emits
a humanized per-field row). -/
theorem c4_counterexample :
    pdfIsNested c4Item = .ok true ∧
    excelIsNested c4Item = false ∧
    save_to_pdf c4Data "v" =
      some [.titleCell "Video Summary", .headingCell "Teacher Insights", .topicCell "  "] ∧
    (save_to_excel c4Data).rows =
      some [[("Section", .jstr "Teacher Insights"), ("Insight", .jstr "[]")]] :=
  ⟨rfl, rfl, rfl, rfl⟩

/-- C4 (amended): the two predicates differ — the document renderer asks
whether any field value is a list, the tabular renderer whether the
`details` key maps to a list.  The tabular predicate strictly implies the
document predicate (this theorem); the converse fails (see the
counterexample), so the renderers agree exactly on items where every list
value sits under `details`. -/
theorem c4_nested_predicates (item : JVal) (h : excelIsNested item = true) :
    pdfIsNested item = .ok true :=
  excelNested_implies_pdfNested item h

/-- C4 witness: the implication applied at a schema-conforming nested
item. -/
theorem c4_nested_predicates_witness :
    pdfIsNested (JVal.jobj [("topic", .jstr "T"), ("details", .jarr [])]) = .ok true :=
  c4_nested_predicates (JVal.jobj [("topic", .jstr "T"), ("details", .jarr [])]) rfl

/-- Data for claim C5: a top-level section whose key is not one of the
seven expected keys. -/
def c5Data : JVal :=
  .jobj [("main_subject", .jstr "S"),
    ("extra_section", .jarr [.jobj [("point", .jstr "p"), ("time", .jint 3)]])]

/-- C5 counterexample: a top-level section absent from `EXPECTED_KEYS` is
not ignored — the document renderer emits a heading "Extra Section" and
its item's events, and the tabular renderer emits a row for it. -/
theorem c5_counterexample :
    ("extra_section" ∈ EXPECTED_KEYS → False) ∧
    save_to_pdf c5Data "vid" =
      some [.titleCell "S", .headingCell "Extra Section",
            .labelCell "• Point: ", .textSegs [.plain "p"],
            .timeLink "[00:03]" "https.www.youtube.com/watch?v=vid&t=3s"] ∧
    (save_to_excel c5Data).rows =
      some [[("Section", .jstr "Extra Section"), ("Point", .jstr "p"),
             ("Time", .jstr "3")]] :=
  ⟨by decide, rfl, rfl⟩

/-- C5 (amended): the renderers skip only `main_subject` and falsy
values; `EXPECTED_KEYS` is never consulted.  Whenever the document
renderer succeeds, its headings are exactly the humanized top-level keys
other than `main_subject` with truthy values, in dict order — however
many or few of them are expected keys. -/
theorem c5_extra_sections_rendered (data : JVal) (vid : String) (evs : List PdfEvent)
    (h : pdfBody data vid = .ok evs) :
    pdfHeadings evs = (sectionEntries data).map (fun kv => humanize kv.1) :=
  pdfBody_headings h

/-- C5 witness: the heading characterization applied at the
extra-section input. -/
theorem c5_extra_sections_rendered_witness :
    pdfHeadings [.titleCell "S", .headingCell "Extra Section",
            .labelCell "• Point: ", .textSegs [.plain "p"],
            .timeLink "[00:03]" "https.www.youtube.com/watch?v=vid&t=3s"] =
      (sectionEntries c5Data).map (fun kv => humanize kv.1) :=
  c5_extra_sections_rendered c5Data "vid" _ rfl

/-- Data for claim C6: a flat section item carrying a `time` field. -/
def c6FlatData : JVal :=
  .jobj [("teacher_insights", .jarr [.jobj [("insight", .jstr "a"), ("time", .jint 5)]])]

/-- Data for claim C6: a nested detail carrying a field besides `detail`
and `time`. -/
def c6NestedData : JVal :=
  .jobj [("topic_breakdown", .jarr [.jobj [("topic", .jstr "T"),
    ("details", .jarr [.jobj [("detail", .jstr "d"), ("time", .jint 7),
      ("extra", .jstr "lost")]])]])]

/-- C6 counterexample: for a flat leaf item the `time` field is not
surfaced as `Time (s)` — it is humanized like every other field, giving a
column named `Time` holding the stringified value, and no `Time (s)`
column exists; and for a nested detail the row does not get one column
per remaining field — the `extra` field contributes no column. -/
theorem c6_counterexample :
    (save_to_excel c6FlatData).rows =
      some [[("Section", .jstr "Teacher Insights"), ("Insight", .jstr "a"),
             ("Time", .jstr "5")]] ∧
    objLookup [("Section", .jstr "Teacher Insights"), ("Insight", .jstr "a"),
             ("Time", .jstr "5")] "Time (s)" = none ∧
    (save_to_excel c6NestedData).rows =
      some [[("Section", .jstr "Topic Breakdown"), ("Topic", .jstr "T"),
             ("Detail", .jstr "d"), ("Time (s)", .jint 7)]] ∧
    objLookup [("Section", .jstr "Topic Breakdown"), ("Topic", .jstr "T"),
             ("Detail", .jstr "d"), ("Time (s)", .jint 7)] "Extra" = none :=
  ⟨rfl, rfl, rfl, rfl⟩

/-- C6 (amended): a nested detail row has exactly the columns `Section`,
`Topic`, `Detail` and `Time (s)` whatever fields the detail object
carries (other fields are dropped); a flat item row has `Section` plus
one humanized column per field of the item — including `time`, which
becomes a column named `Time` with the stringified value, not
`Time (s)`. -/
theorem c6_row_shape :
    (∀ (d : JVal) (r : Row),
      excelDetailRow [("Section", .jstr "S"), ("Topic", .jstr "T")] d = .ok r →
      r.map Prod.fst = ["Section", "Topic", "Detail", "Time (s)"]) ∧
    (save_to_excel c6FlatData).rows =
      some [[("Section", .jstr "Teacher Insights"), ("Insight", .jstr "a"),
             ("Time", .jstr "5")]] := by
  refine ⟨fun d r h => ?_, rfl⟩
  unfold excelDetailRow at h
  obtain ⟨dv, hdv, h⟩ := exBind_ok h
  obtain ⟨ds, hds, h⟩ := exBind_ok h
  obtain ⟨tv, htv, h⟩ := exBind_ok h
  have he := exPure_ok h
  subst he
  rfl

/-- C6 witness: the column characterization applied at a detail with an
extra field. -/
theorem c6_row_shape_witness :
    List.map Prod.fst [("Section", JVal.jstr "S"), ("Topic", JVal.jstr "T"),
        ("Detail", JVal.jstr "d"), ("Time (s)", JVal.jint 7)] =
      ["Section", "Topic", "Detail", "Time (s)"] :=
  c6_row_shape.1 (.jobj [("detail", .jstr "d"), ("time", .jint 7), ("extra", .jstr "lost")])
    [("Section", JVal.jstr "S"), ("Topic", JVal.jstr "T"),
     ("Detail", JVal.jstr "d"), ("Time (s)", JVal.jint 7)] rfl

/-- Data for claim C7: a truthy non-list section value, over which the
row-flattening loop raises `TypeError`. -/
def c7Data : JVal := .jobj [("teacher_insights", .jint 5)]

/-- C7 counterexample: row flattening raises, yet `save_to_excel` raises
nothing to its caller and writes nothing — the failure is swallowed into
an empty output with no signal, exactly what the claim rules out. -/
theorem c7_counterexample :
    excelRows c7Data = .error "TypeError: not iterable" ∧
    (save_to_excel c7Data).raised = false ∧
    (save_to_excel c7Data).rows = none :=
  ⟨rfl, rfl, rfl⟩

/-- C7 (amended): `save_to_excel` never propagates an exception to its
caller — its `except` clause only prints — and when flattening fails it
writes no rows, so the caller receives empty output with no failure
signal. -/
theorem c7_failure_swallowed (data : JVal) :
    (save_to_excel data).raised = false ∧
    (∀ e, excelRows data = .error e → (save_to_excel data).rows = none) := by
  constructor
  · unfold save_to_excel
    cases h : excelRows data <;> simp
  · intro e he
    unfold save_to_excel
    rw [he]

/-- C7 witness: the swallowed failure at the concrete raising input. -/
theorem c7_failure_swallowed_witness :
    (save_to_excel c7Data).raised = false ∧ (save_to_excel c7Data).rows = none :=
  ⟨(c7_failure_swallowed c7Data).1,
   (c7_failure_swallowed c7Data).2 "TypeError: not iterable" rfl⟩

/-- C8 counterexample: an unmatched `<hl>` at the start of a residual
split part is not treated as literal text — the renderer strips four
leading and five trailing characters from the part and renders the rest
highlighted, so `<hl>x` renders as a single empty highlighted segment:
every character of the input is dropped. -/
theorem c8_counterexample :
    write_highlighted_text "<hl>x" = [.hl ""] ∧
    segsText (write_highlighted_text "<hl>x") = "" ∧
    "" ≠ "<hl>x" :=
  ⟨rfl, rfl, by decide⟩

/-- C8 (amended): highlight parsing tolerates zero, one, or multiple
spans without crashing — the split itself loses no characters, matched
spans render highlighted with their tags stripped, the rest renders
literally, and an unmatched `</hl>`, or an unmatched `<hl>` not at the
start of a residual part, stays literal; but a residual part beginning
with an unmatched `<hl>` is mistaken for a span: its first four and last
five characters are stripped and the remainder rendered highlighted,
dropping characters. -/
theorem c8_highlight_tolerance :
    (∀ s : String, partsText (reSplitHl s) = s) ∧
    write_highlighted_text "A <hl>B</hl> C" = [.plain "A ", .hl "B", .plain " C"] ∧
    write_highlighted_text "A B" = [.plain "A B"] ∧
    write_highlighted_text "a<hl>b</hl>c<hl>d</hl>e" =
      [.plain "a", .hl "b", .plain "c", .hl "d", .plain "e"] ∧
    write_highlighted_text "x </hl> y" = [.plain "x </hl> y"] ∧
    write_highlighted_text "a<hl>b" = [.plain "a<hl>b"] ∧
    write_highlighted_text "<hl>x" = [.hl ""] :=
  ⟨reSplitHl_preserves, rfl, rfl, rfl, rfl, rfl, rfl⟩

/-- C9: for every non-negative number of seconds, `format_timestamp`
yields `[MM:SS]` with `MM = s / 60` and `SS = s % 60`, each zero-padded
to two digits, with no hour rollover; in particular 125 gives `[02:05]`,
0 gives `[00:00]` and 3661 gives `[61:01]`. -/
theorem c9_format_timestamp_correct :
    (∀ s : Nat, format_timestamp (Int.ofNat s) =
      "[" ++ (if s / 60 < 10 then "0" ++ Nat.repr (s / 60) else Nat.repr (s / 60)) ++ ":" ++
      (if s % 60 < 10 then "0" ++ Nat.repr (s % 60) else Nat.repr (s % 60)) ++ "]") ∧
    format_timestamp 125 = "[02:05]" ∧
    format_timestamp 0 = "[00:00]" ∧
    format_timestamp 3661 = "[61:01]" := by
  refine ⟨fun s => ?_, rfl, rfl, rfl⟩
  show "[" ++ pyFormat02 (Int.ofNat (s / 60)) ++ ":" ++ pyFormat02 (Int.ofNat (s % 60)) ++ "]" = _
  rw [pyFormat02_ofNat, pyFormat02_ofNat]

/-- Data for claim C10: one nested detail and one flat item, both lacking
a `time` field. -/
def c10Data : JVal :=
  .jobj [("topic_breakdown", .jarr [.jobj [("topic", .jstr "T"),
    ("details", .jarr [.jobj [("detail", .jstr "d")]])]]),
    ("teacher_insights", .jarr [.jobj [("insight", .jstr "a")]])]

/-- C10 counterexample: for a flat leaf item lacking `time` the tabular
renderer records nothing at all — its row has neither a `Time (s)` nor a
`Time` column — rather than recording 0 in a time column. -/
theorem c10_counterexample :
    (save_to_excel c10Data).rows =
      some [[("Section", .jstr "Topic Breakdown"), ("Topic", .jstr "T"),
             ("Detail", .jstr "d"), ("Time (s)", .jint 0)],
            [("Section", .jstr "Teacher Insights"), ("Insight", .jstr "a")]] ∧
    objLookup [("Section", .jstr "Teacher Insights"), ("Insight", .jstr "a")]
      "Time (s)" = none ∧
    objLookup [("Section", .jstr "Teacher Insights"), ("Insight", .jstr "a")]
      "Time" = none :=
  ⟨rfl, rfl, rfl⟩

/-- C10 (amended): a missing `time` defaults to 0 in the document
renderer — any detail object without a `time` key renders the label
`[00:00]` and the link offset `&t=0s` (proved generally), and the same
substitution shows up for the flat item — and in the tabular renderer's
nested branch, which records 0 under `Time (s)`; but a flat item lacking
`time` gets no time column at all in its row. -/
theorem c10_missing_time_defaults :
    (∀ (entries : List (String × JVal)) (b : String),
      objLookup entries "time" = none →
      pdfDetailEvents b (.jobj entries) =
        .ok [.textSegs (write_highlighted_text
                ("    • " ++ pyStr ((objLookup entries "detail").getD (.jstr "")))),
             .timeLink "[00:00]" (b ++ "&t=0s")]) ∧
    save_to_pdf c10Data "id7" =
      some [.titleCell "Video Summary", .headingCell "Topic Breakdown",
            .topicCell "  T", .textSegs [.plain "    • d"],
            .timeLink "[00:00]" "https.www.youtube.com/watch?v=id7&t=0s",
            .headingCell "Teacher Insights", .labelCell "• Insight: ",
            .textSegs [.plain "a"],
            .timeLink "[00:00]" "https.www.youtube.com/watch?v=id7&t=0s"] ∧
    (save_to_excel c10Data).rows =
      some [[("Section", .jstr "Topic Breakdown"), ("Topic", .jstr "T"),
             ("Detail", .jstr "d"), ("Time (s)", .jint 0)],
            [("Section", .jstr "Teacher Insights"), ("Insight", .jstr "a")]] :=
  ⟨pdfDetail_no_time, rfl, rfl⟩

/-- C10 witness: the default-time rendering applied at a concrete detail
without a `time` key. -/
theorem c10_missing_time_defaults_witness :
    pdfDetailEvents "u" (.jobj [("detail", .jstr "d")]) =
      .ok [.textSegs (write_highlighted_text
              ("    • " ++ pyStr ((objLookup [("detail", JVal.jstr "d")] "detail").getD (.jstr "")))),
           .timeLink "[00:00]" ("u" ++ "&t=0s")] :=
  c10_missing_time_defaults.1 [("detail", .jstr "d")] "u" rfl

end NotesTool
